import Mathlib

/-!
Shallow embedding of the GraalVM native-image cataloger
(`syft/pkg/cataloger/java` native-image extraction engine): format probing,
ELF/Mach-O symbol location, the PE export-directory walk, the payload
decoder (`decompressSbom`) and the component-to-package mapper
(`getPackage`), together with the outer per-file loop (`fetchPkgs`) and the
multi-file `Catalog` loop.

Machine integers are modelled as `Nat` with explicit reduction modulo
`2^32` / `2^64` exactly where the Go source performs `uint32` / `uint64`
arithmetic.  Go's fallible calls return `GoOutcome`, which distinguishes a
returned `error` value from a runtime panic caused by an out-of-range slice
expression (Go slicing `b[lo:hi]` panics unless `lo ≤ hi ≤ len b`).

External collaborators (the `compress/gzip` decompressor, the
`encoding/json` unmarshaller and the `cpe.New` parser, all consumed by the
engine as pure functions) are parameters of the embedding, bundled in
`Ext`.
-/

/-- 2^32, the modulus of Go `uint32` arithmetic. -/
def U32 : Nat := 2 ^ 32

/-- 2^64, the modulus of Go `uint64` arithmetic. -/
def U64 : Nat := 2 ^ 64

/-- Go `uint32` subtraction `a - b` (wrap-around modulo 2^32). -/
def wsub32 (a b : Nat) : Nat := (a % U32 + U32 - b % U32) % U32

/-- Go `uint64` subtraction `a - b` (wrap-around modulo 2^64). -/
def wsub64 (a b : Nat) : Nat := (a % U64 + U64 - b % U64) % U64

/-- The little-endian unsigned value of the `sz` bytes of `buf` starting at
offset `off` (the result of `binary.Read(.., binary.LittleEndian, ..)` on
the slice `buf[off : off+sz]`; callers only invoke it after the slice was
bounds-checked). -/
def readLE (buf : List Nat) (off : Nat) : Nat → Nat
  | 0 => 0
  | sz + 1 => buf.getD off 0 + 256 * readLE buf (off + 1) sz

/-- Errors returned (as Go `error` values) by the engine, plus the two
resolver-level failures surfaced by `Catalog`. -/
inductive GoErr where
  | sbomLengthOverflow  -- "the sbom_length symbol overflows the binary"
  | sbomOverflow        -- "the sbom symbol overflows the binary"
  | gzipErr             -- gzip.NewReader / io.ReadAll failure
  | jsonErr             -- json.Unmarshal failure
  | symbolsErr          -- elf Symbols() failure
  | dataErr             -- elf section Data() failure
  | missingSymbols      -- nativeImageMissingSymbolsError
  | invalidIndex        -- nativeImageInvalidIndexError
  | resolverMime        -- resolver.FilesByMIMEType failure (Catalog)
  | resolverUnion       -- unionreader.GetUnionReader failure (Catalog)
  deriving DecidableEq, Repr

/-- Outcome of a Go call: a normal result, a returned `error` value, or a
runtime panic (out-of-range slice index). -/
inductive GoOutcome (α : Type) where
  | ok (val : α)
  | error (e : GoErr)
  | panic
  deriving DecidableEq, Repr

instance : Monad GoOutcome where
  pure := .ok
  bind x f :=
    match x with
    | .ok a => f a
    | .error e => .error e
    | .panic => .panic

/-- CycloneDX property entry (`nativeImageCPE`): `{name, value}`. -/
structure nativeImageCPE where
  name : String
  value : String
  deriving DecidableEq, Repr

/-- CycloneDX component (`nativeImageComponent`). -/
structure nativeImageComponent where
  type : String
  group : String
  name : String
  version : String
  properties : List nativeImageCPE
  deriving DecidableEq, Repr

/-- Decoded SBOM document (`nativeImageCycloneDX`). -/
structure nativeImageCycloneDX where
  bomFormat : String
  specVersion : String
  version : Int
  components : List nativeImageComponent
  deriving DecidableEq, Repr

/-- `pkg.PomProperties` (only the field the engine sets). -/
structure PomProperties where
  groupID : String
  deriving DecidableEq, Repr

/-- `pkg.JavaMetadata` (only the field the engine sets). -/
structure JavaMetadata where
  pomProperties : PomProperties
  deriving DecidableEq, Repr

/-- Fixed tag `pkg.Java` attached to every produced package. -/
def pkgJava : String := "java"

/-- Fixed tag `pkg.GraalVMNativeImagePkg` attached to every produced package. -/
def pkgGraalVMNativeImagePkg : String := "graalvm-native-image"

/-- Fixed tag `pkg.JavaMetadataType` attached to every produced package. -/
def pkgJavaMetadataType : String := "JavaMetadata"

/-- `nativeImageCatalogerName`. -/
def nativeImageCatalogerName : String := "graalvm-native-image-cataloger"

/-- Marker symbol name `sbom`. -/
def nativeImageSbomSymbol : String := "sbom"

/-- Marker symbol name `sbom_length`. -/
def nativeImageSbomLengthSymbol : String := "sbom_length"

/-- Marker symbol name `__svm_version_info`. -/
def nativeImageSbomVersionSymbol : String := "__svm_version_info"

/-- The produced `pkg.Package`, parametric in the (externally parsed) CPE
type. -/
structure Package (CPE : Type) where
  name : String
  version : String
  language : String
  typ : String
  metadataType : String
  foundBy : String
  metadata : JavaMetadata
  cpes : List CPE
  deriving DecidableEq, Repr

/-- The engine's external pure collaborators: gzip decompression
(`gzip.NewReader` + `io.ReadAll`, `none` = corrupt stream), JSON
unmarshalling (`json.Unmarshal`, `none` = malformed text) and CPE parsing
(`cpe.New`, `none` = parse failure). -/
structure ExtDeps (CPE : Type) where
  gz : List Nat → Option (List Nat)
  js : List Nat → Option nativeImageCycloneDX
  cpeNew : String → Option CPE

/-- `getPackage`: maps one component to one package.  The CPE loop mirrors
the Go `for`/`continue` loop: a property whose value fails to parse is
skipped, every other property appends its parsed CPE in order. -/
def getPackage {CPE : Type} (cpeNew : String → Option CPE)
    (component : nativeImageComponent) : Package CPE :=
  { name := component.name
    version := component.version
    language := pkgJava
    typ := pkgGraalVMNativeImagePkg
    metadataType := pkgJavaMetadataType
    foundBy := nativeImageCatalogerName
    metadata := ⟨⟨component.group⟩⟩
    cpes := component.properties.foldl
      (fun acc property =>
        match cpeNew property.value with
        | none => acc          -- log.Debugf(...); continue
        | some c => acc ++ [c])
      [] }

/-- `decompressSbom`: bounds-checks the length field and the payload slice
(with Go `uint64` wrap-around in `lengthStart + 8` and
`sbomStart + storedLength`), reads the 8-byte little-endian declared
length, slices and decompresses the payload, decodes the JSON and maps the
components through `getPackage` with the source's append loop.  A slice
expression whose (wrapped) low index exceeds its high index panics in Go;
this is the `.panic` outcome. -/
def decompressSbom {CPE : Type} (E : ExtDeps CPE) (databuf : List Nat)
    (sbomStart lengthStart : Nat) : GoOutcome (List (Package CPE)) :=
  let buflen := databuf.length
  let lengthEnd := (lengthStart + 8) % U64
  if lengthEnd > buflen then .error .sbomLengthOverflow
  else if lengthStart % U64 > lengthEnd then .panic  -- databuf[lengthStart:lengthEnd]
  else
    let storedLength := readLE databuf (lengthStart % U64) 8
    let sbomEnd := (sbomStart + storedLength) % U64
    if sbomEnd > buflen then .error .sbomOverflow
    else if sbomStart % U64 > sbomEnd then .panic   -- databuf[sbomStart:sbomEnd]
    else
      let sbomCompressed := (databuf.drop (sbomStart % U64)).take (sbomEnd - sbomStart % U64)
      match E.gz sbomCompressed with
      | none => .error .gzipErr
      | some output =>
        match E.js output with
        | none => .error .jsonErr
        | some sbomContent =>
          .ok (sbomContent.components.foldl
            (fun pkgs component => pkgs ++ [getPackage E.cpeNew component]) [])

/-- An ELF symbol-table entry (`elf.Symbol`): name and `uint64` value. -/
structure ElfSymbol where
  name : String
  value : Nat
  deriving DecidableEq, Repr

/-- The `.data` section of an ELF file: virtual base address
(`SectionHeader.Addr`) and its bytes (`none` models a failing `Data()`). -/
structure ElfSection where
  addr : Nat
  data : Option (List Nat)
  deriving DecidableEq, Repr

/-- The view of a parsed `elf.File` the engine consumes: `Symbols()`
(`none` models its error) and `Section(".data")`. -/
structure ElfFile where
  symbols : Option (List ElfSymbol)
  dataSection : Option ElfSection
  deriving DecidableEq, Repr

/-- The three marker symbols accumulated by the ELF scan loop (the Go
`var sbom/sbomLength/svmVersion elf.Symbol` locals; only the zero-initial
`Value` field matters downstream). -/
structure ElfSyms where
  sbom : Nat
  sbomLength : Nat
  svmVersion : Nat
  deriving DecidableEq, Repr

/-- The ELF symbol scan (`for _, s := range si { switch s.Name ... }`):
each matching symbol overwrites the corresponding local. -/
def findElfSyms (si : List ElfSymbol) : ElfSyms :=
  si.foldl
    (fun acc s =>
      if s.name = nativeImageSbomSymbol then { acc with sbom := s.value }
      else if s.name = nativeImageSbomLengthSymbol then { acc with sbomLength := s.value }
      else if s.name = nativeImageSbomVersionSymbol then { acc with svmVersion := s.value }
      else acc)
    ⟨0, 0, 0⟩

/-- `nativeImageElf.fetchPkgs`.  Note the source quirk: when the `.data`
section is missing it executes `return nil, err` with `err` known to be
`nil` at that point, i.e. it returns an empty result with no error. -/
def nativeImageElf.fetchPkgs {CPE : Type} (E : ExtDeps CPE) (ni : ElfFile) :
    GoOutcome (List (Package CPE)) :=
  match ni.symbols with
  | none => .error .symbolsErr
  | some si =>
    let s := findElfSyms si
    if s.sbom = 0 ∨ s.sbomLength = 0 ∨ s.svmVersion = 0 then .error .missingSymbols
    else
      match ni.dataSection with
      | none => .ok []        -- return nil, err (err = nil here)
      | some dataSection =>
        match dataSection.data with
        | none => .error .dataErr
        | some data =>
          decompressSbom E data (wsub64 s.sbom dataSection.addr)
            (wsub64 s.sbomLength dataSection.addr)

/-- A Mach-O symbol-table entry (`macho.Symbol`). -/
structure MachOSymbol where
  name : String
  value : Nat
  deriving DecidableEq, Repr

/-- The `__DATA` segment of a Mach-O file. -/
structure MachOSegment where
  addr : Nat
  data : Option (List Nat)
  deriving DecidableEq, Repr

/-- The view of a parsed `macho.File` the engine consumes: the symbol
table and `Segment("__DATA")`.  `Symtab` is a nilable pointer in the
parsed file — `macho.NewFile` accepts a Mach-O with no `LC_SYMTAB`
command and leaves it nil — so it is an `Option`; the engine dereferences
it without a nil check. -/
structure MachOFile where
  symtab : Option (List MachOSymbol)
  dataSegment : Option MachOSegment
  deriving DecidableEq, Repr

/-- The Mach-O symbol scan (marker names carry a leading underscore). -/
def findMachOSyms (si : List MachOSymbol) : ElfSyms :=
  si.foldl
    (fun acc s =>
      if s.name = "_" ++ nativeImageSbomSymbol then { acc with sbom := s.value }
      else if s.name = "_" ++ nativeImageSbomLengthSymbol then { acc with sbomLength := s.value }
      else if s.name = "_" ++ nativeImageSbomVersionSymbol then { acc with svmVersion := s.value }
      else acc)
    ⟨0, 0, 0⟩

/-- `nativeImageMachO.fetchPkgs`.  The range expression `bi.Symtab.Syms`
dereferences the `Symtab` pointer with no nil check, so a recognized
Mach-O without a symbol table panics.  A missing `__DATA` segment and a
failing `Data()` both execute `return nil, nil`. -/
def nativeImageMachO.fetchPkgs {CPE : Type} (E : ExtDeps CPE) (ni : MachOFile) :
    GoOutcome (List (Package CPE)) :=
  match ni.symtab with
  | none => .panic       -- nil-pointer dereference in bi.Symtab.Syms
  | some syms =>
  let s := findMachOSyms syms
  if s.sbom = 0 ∨ s.sbomLength = 0 ∨ s.svmVersion = 0 then .error .missingSymbols
  else
    match ni.dataSegment with
    | none => .ok []
    | some seg =>
      match seg.data with
      | none => .ok []
      | some databuf =>
        decompressSbom E databuf (wsub64 s.sbom seg.addr) (wsub64 s.sbomLength seg.addr)

/-- PE export-directory header fields plus the three recorded marker
indices (`exportContentPE`).  `addressOfSbom`, `addressOfSbomLength` and
`addressOfSvmVersion` are *name-array indices*, zero-initialised by
`new(exportContentPE)`. -/
structure exportContentPE where
  numberOfFunctions : Nat
  numberOfNames : Nat
  addressOfFunctions : Nat
  addressOfNames : Nat
  addressOfSbom : Nat
  addressOfSbomLength : Nat
  addressOfSvmVersion : Nat
  deriving DecidableEq, Repr

/-- The `.data` section of a PE file: `VirtualAddress` (uint32) and bytes
(`none` models a failing `Data()`). -/
structure PESection where
  virtualAddress : Nat
  data : Option (List Nat)
  deriving DecidableEq, Repr

/-- The state a `nativeImagePE` carries: the exports buffer read from the
export data directory, that directory's `VirtualAddress`, and
`Section(".data")`. -/
structure nativeImagePE where
  exports : List Nat
  exportVA : Nat
  dataSection : Option PESection
  deriving DecidableEq, Repr

/-- `unsafe.Sizeof(ni.header)`: size of `exportPrefixPE`
(uint32, uint32, uint16, uint16, uint32, uint32 = 20 bytes). -/
def sizeofExportPrefixPE : Nat := 20

/-- `unsafe.Sizeof` of a uint32 header attribute / pointer entry. -/
def sizeofUint32 : Nat := 4

/-- `nativeImagePE.fetchExportAttribute`: reads the `i`-th uint32 header
attribute after the 20-byte prefix; `j+4 >= n` (Go `int` arithmetic) is
rejected as an invalid index. -/
def nativeImagePE.fetchExportAttribute (ni : nativeImagePE) (i : Nat) :
    GoOutcome Nat :=
  let n := ni.exports.length
  let j := sizeofExportPrefixPE + i * sizeofUint32
  if j + 4 ≥ n then .error .invalidIndex
  else .ok (readLE ni.exports j 4)

/-- `nativeImagePE.fetchExportFunctionPointer`: reads the `i`-th uint32 of
the function-pointer array at `functionsBase`, in Go `uint32` arithmetic
(`n := uint32(len(exports))`, `j := functionsBase + i*4`, check
`j+4 >= n`).  When `j + 4` wraps past 2^32 the check can pass with the
slice's low index above its high index, which panics. -/
def nativeImagePE.fetchExportFunctionPointer (ni : nativeImagePE)
    (functionsBase i : Nat) : GoOutcome Nat :=
  let n := ni.exports.length % U32
  let j := (functionsBase + i * sizeofUint32) % U32
  let high := (j + sizeofUint32) % U32
  if high ≥ n then .error .invalidIndex
  else if j > high then .panic      -- ni.exports[j : j+sz] with j > high
  else .ok (readLE ni.exports j 4)

/-- `nativeImagePE.fetchExportContent`: reads the four export-directory
header attributes (numberOfFunctions, numberOfNames, addressOfFunctions,
addressOfNames); any failure propagates, the marker indices start at 0. -/
def nativeImagePE.fetchExportContent (ni : nativeImagePE) :
    GoOutcome exportContentPE := do
  let numberOfFunctions ← ni.fetchExportAttribute 0
  let numberOfNames ← ni.fetchExportAttribute 1
  let addressOfFunctions ← ni.fetchExportAttribute 2
  let addressOfNames ← ni.fetchExportAttribute 3
  pure ⟨numberOfFunctions, numberOfNames, addressOfFunctions, addressOfNames, 0, 0, 0⟩

/-- The ASCII byte sequence of a marker string. -/
def strBytes (s : String) : List Nat := s.data.map Char.toNat

/-- `sbom\x00`, the NUL-terminated payload marker. -/
def sbomBytes : List Nat := strBytes nativeImageSbomSymbol ++ [0]

/-- `sbom_length\x00`, the NUL-terminated length marker. -/
def sbomLengthBytes : List Nat := strBytes nativeImageSbomLengthSymbol ++ [0]

/-- `__svm_version_info\x00`, the NUL-terminated version marker. -/
def svmVersionInfoBytes : List Nat := strBytes nativeImageSbomVersionSymbol ++ [0]

/-- One pass of the `fetchSbomSymbols` name-pointer walk, unrolled on the
remaining iteration count `rem` (the walk runs `i` from 0 to
`numberOfNames - 1`).  All index arithmetic is Go `uint32`.  A failed
bounds check (`k+sz >= n`, or `symbolBase >= n`) silently stops the walk
and returns the content accumulated so far — it is logged, not returned as
an error.  A wrapped `k + sz` that defeats the check panics on the slice
`exports[k : k+sz]`. -/
def nativeImagePE.fetchSbomSymbolsLoop (ni : nativeImagePE)
    (content : exportContentPE) (i rem : Nat) : GoOutcome exportContentPE :=
  match rem with
  | 0 => .ok content
  | rem' + 1 =>
    let n := ni.exports.length % U32
    let j := (i * sizeofUint32) % U32
    let addressBase := wsub32 content.addressOfNames ni.exportVA
    let k := (addressBase + j) % U32
    let high := (k + sizeofUint32) % U32
    if high ≥ n then .ok content          -- stop looking, no error
    else if k > high then .panic          -- ni.exports[k : k+sz]
    else
      let symbolAddress := readLE ni.exports k 4
      let symbolBase := wsub32 symbolAddress ni.exportVA
      if symbolBase ≥ n then .ok content  -- stop looking, no error
      else
        let tail := ni.exports.drop symbolBase
        let content' :=
          if sbomBytes.isPrefixOf tail then { content with addressOfSbom := i }
          else if sbomLengthBytes.isPrefixOf tail then { content with addressOfSbomLength := i }
          else if svmVersionInfoBytes.isPrefixOf tail then { content with addressOfSvmVersion := i }
          else content
        ni.fetchSbomSymbolsLoop content' (i + 1) rem'

/-- `nativeImagePE.fetchSbomSymbols`: walks the `numberOfNames` entries of
the name-pointer array, recording the name-array index `i` of each of the
three markers it resolves. -/
def nativeImagePE.fetchSbomSymbols (ni : nativeImagePE)
    (content : exportContentPE) : GoOutcome exportContentPE :=
  ni.fetchSbomSymbolsLoop content 0 content.numberOfNames

/-- `nativeImagePE.fetchPkgs`: reads the export header, walks the names,
declares the image manifest-free when any recorded marker index is zero,
resolves the two payload addresses through the function-pointer array and
delegates to `decompressSbom` over the `.data` section (a missing section
or failing `Data()` executes `return nil, nil`). -/
def nativeImagePE.fetchPkgs {CPE : Type} (E : ExtDeps CPE)
    (ni : nativeImagePE) : GoOutcome (List (Package CPE)) := do
  let content₀ ← ni.fetchExportContent
  let content ← ni.fetchSbomSymbols content₀
  if content.addressOfSbom = 0 ∨ content.addressOfSbomLength = 0 ∨
      content.addressOfSvmVersion = 0 then
    .error .missingSymbols
  else
    let functionsBase := wsub32 content.addressOfFunctions ni.exportVA
    let sbomAddress ← ni.fetchExportFunctionPointer functionsBase content.addressOfSbom
    let sbomLengthAddress ← ni.fetchExportFunctionPointer functionsBase content.addressOfSbomLength
    match ni.dataSection with
    | none => .ok []
    | some dataSection =>
      match dataSection.data with
      | none => .ok []
      | some databuf =>
        decompressSbom E databuf (wsub32 sbomAddress dataSection.virtualAddress)
          (wsub32 sbomLengthAddress dataSection.virtualAddress)

/-- A recognized binary image, the `nativeImage` interface's variants. -/
inductive NImage where
  | elf (f : ElfFile)
  | macho (f : MachOFile)
  | pe (f : nativeImagePE)
  deriving DecidableEq, Repr

/-- `nativeImage.fetchPkgs`, dispatching on the variant. -/
def NImage.fetchPkgs {CPE : Type} (E : ExtDeps CPE) :
    NImage → GoOutcome (List (Package CPE))
  | .elf f => nativeImageElf.fetchPkgs E f
  | .macho f => nativeImageMachO.fetchPkgs E f
  | .pe f => nativeImagePE.fetchPkgs E f

/-- One candidate reader, characterised by what each of the three format
probes (`newElf`, `newMachO`, `newPE` — external `debug/*` parsers plus
the PE export-directory preparation) yields on it: a recognized image, or
`none` when the probe declines or fails. -/
structure Reader where
  elf : Option ElfFile
  macho : Option MachOFile
  pe : Option nativeImagePE

/-- The ordered probe results for one reader: ELF, then Mach-O, then PE
(the `imageformats` slice). -/
def probeResults (r : Reader) : List (Option NImage) :=
  [r.elf.map .elf, r.macho.map .macho, r.pe.map .pe]

/-- One step of the outer probe loop: a failed probe and a returned
extraction error both `continue`; a successful extraction appends its
packages; a panic propagates. -/
def stepProbe {CPE : Type} (E : ExtDeps CPE)
    (acc : GoOutcome (List (Package CPE))) (p : Option NImage) :
    GoOutcome (List (Package CPE)) :=
  match acc with
  | .panic => .panic
  | .error e => .error e
  | .ok pkgs =>
    match p with
    | none => .ok pkgs                       -- makeNativeImage failed: continue
    | some ni =>
      match ni.fetchPkgs E with
      | .error _ => .ok pkgs                 -- log.Debugf(...); continue
      | .panic => .panic
      | .ok newpkgs => .ok (pkgs ++ newpkgs)

/-- The contribution of one reader: the three probes tried in order, each
successful probe's extraction appended. -/
def fetchPkgsReader {CPE : Type} (E : ExtDeps CPE)
    (acc : GoOutcome (List (Package CPE))) (r : Reader) :
    GoOutcome (List (Package CPE)) :=
  (probeResults r).foldl (stepProbe E) acc

/-- The per-file `fetchPkgs` over the union reader: `GetReaders` failure
(`none`) returns an empty list (the function has no error channel); every
reader is probed with all three formats and all contributions accumulate. -/
def fetchPkgs {CPE : Type} (E : ExtDeps CPE)
    (readers? : Option (List Reader)) : GoOutcome (List (Package CPE)) :=
  match readers? with
  | none => .ok []
  | some readers => readers.foldl (fetchPkgsReader E) (.ok [])

/-- One candidate file as `Catalog` sees it: opening its contents can fail
(`openErr`, skipped with a diagnostic), building the union reader can fail
(`unionErr`, propagated as a hard failure), or it yields the readers that
`fetchPkgs` will probe. -/
inductive FileEntry where
  | openErr
  | unionErr
  | entry (readers? : Option (List Reader))

/-- One step of the `Catalog` file loop. -/
def stepCatalog {CPE : Type} (E : ExtDeps CPE)
    (acc : GoOutcome (List (Package CPE))) (f : FileEntry) :
    GoOutcome (List (Package CPE)) :=
  match acc with
  | .panic => .panic
  | .error e => .error e
  | .ok pkgs =>
    match f with
    | .openErr => .ok pkgs                   -- log.Debugf(...); continue
    | .unionErr => .error .resolverUnion     -- return nil, nil, err
    | .entry readers? =>
      match fetchPkgs E readers? with
      | .ok newpkgs => .ok (pkgs ++ newpkgs)
      | .error e => .error e                 -- unreachable: fetchPkgs never errors
      | .panic => .panic

/-- `NativeImageCataloger.Catalog`: `FilesByMIMEType` failure (`none`) is a
hard failure; otherwise each matched file is processed in turn and
contributes its `fetchPkgs` result. -/
def Catalog {CPE : Type} (E : ExtDeps CPE) (files? : Option (List FileEntry)) :
    GoOutcome (List (Package CPE)) :=
  match files? with
  | none => .error .resolverMime
  | some files => files.foldl (stepCatalog E) (.ok [])

/-- Trivial external collaborators (everything fails), CPE type `Unit`:
enough for runs that never reach decompression. -/
def extUnit : ExtDeps Unit := ⟨fun _ => none, fun _ => none, fun _ => none⟩

/-- The decompressed CycloneDX text of the spec's concrete ELF scenario. -/
def scenarioJsonText : String :=
  "\x7b\"bomFormat\":\"CycloneDX\",\"specVersion\":\"1.4\",\"version\":1,\"components\":[\x7b\"type\":\"library\",\"group\":\"g\",\"name\":\"n\",\"version\":\"1.0\",\"properties\":[]\x7d]\x7d"

/-- The scenario text as bytes. -/
def scenarioJsonBytes : List Nat := strBytes scenarioJsonText

/-- The document `json.Unmarshal` produces from `scenarioJsonText`:
one library component, group `g`, name `n`, version `1.0`, no properties. -/
def scenarioDoc : nativeImageCycloneDX :=
  ⟨"CycloneDX", "1.4", 1, [⟨"library", "g", "n", "1.0", []⟩]⟩

/-- The first 0x20 bytes of the scenario's `.data` buffer: zeros up to
offset 0x10, the little-endian length field 37 at 0x10, zeros up to the
payload at 0x20. -/
def scenarioPre : List Nat :=
  List.replicate 16 0 ++ [37, 0, 0, 0, 0, 0, 0, 0] ++ List.replicate 8 0

/-- The scenario `.data` buffer: the fixed prefix followed by the 37
compressed payload bytes. -/
def scenarioDataBuf (payload : List Nat) : List Nat := scenarioPre ++ payload

/-- The scenario ELF image: `.data` base 0x2000, marker `sbom` at virtual
address 0x2020, `sbom_length` at 0x2010, `__svm_version_info` present
(nonzero value). -/
def scenarioElf (payload : List Nat) : ElfFile :=
  ⟨some [⟨nativeImageSbomSymbol, 0x2020⟩, ⟨nativeImageSbomLengthSymbol, 0x2010⟩,
         ⟨nativeImageSbomVersionSymbol, 0x2001⟩],
   some ⟨0x2000, some (scenarioDataBuf payload)⟩⟩

/-- The expected output package of the scenario: name `n`, version `1.0`,
group `g`, zero CPEs. -/
def scenarioPackage {CPE : Type} : Package CPE :=
  ⟨"n", "1.0", pkgJava, pkgGraalVMNativeImagePkg, pkgJavaMetadataType,
   nativeImageCatalogerName, ⟨⟨"g"⟩⟩, []⟩

/-- Concrete external collaborators realizing the scenario: decompression
maps any payload to the scenario text, unmarshalling maps exactly that
text to `scenarioDoc`, CPE parsing always fails. -/
def scenarioExt : ExtDeps Unit :=
  ⟨fun _ => some scenarioJsonBytes,
   fun b => if b = scenarioJsonBytes then some scenarioDoc else none,
   fun _ => none⟩

/-- A concrete 37-byte payload for witnesses. -/
def payload37 : List Nat := List.replicate 37 9

/-- A Mach-O image carrying the same scenario data (markers with the
Mach-O leading underscore). -/
def scenarioMachO : MachOFile :=
  ⟨some [⟨"_" ++ nativeImageSbomSymbol, 0x2020⟩, ⟨"_" ++ nativeImageSbomLengthSymbol, 0x2010⟩,
     ⟨"_" ++ nativeImageSbomVersionSymbol, 0x2001⟩],
   some ⟨0x2000, some (scenarioDataBuf payload37)⟩⟩

/-- A Mach-O accepted by `macho.NewFile` but carrying no `LC_SYMTAB`
command: its `Symtab` pointer is nil (all three markers are absent). -/
def machoNoSymtab : MachOFile := ⟨none, some ⟨0x2000, some []⟩⟩

/-- An adversarial ELF image: all three markers present and nonzero, but
`sbom_length.Value = 12` lies 4 bytes *below* the `.data` base 16, so the
uint64 offset subtraction underflows to 2^64 - 4 and `lengthStart + 8`
wraps to 4, defeating the bounds check. -/
def elfPanicking : ElfFile :=
  ⟨some [⟨nativeImageSbomSymbol, 1⟩, ⟨nativeImageSbomLengthSymbol, 12⟩,
         ⟨nativeImageSbomVersionSymbol, 5⟩],
   some ⟨16, some [0, 0, 0, 0]⟩⟩

/-- An ELF image whose symbol table lacks the `sbom` marker entirely. -/
def elfMissing : ElfFile :=
  ⟨some [⟨nativeImageSbomLengthSymbol, 5⟩, ⟨nativeImageSbomVersionSymbol, 6⟩],
   some ⟨0, some [0, 0, 0, 0, 0, 0, 0, 0]⟩⟩

/-- A PE image whose export directory declares `numberOfNames = 0`
(header attributes at offsets 20..35: numberOfFunctions 5, numberOfNames
0, addressOfFunctions 7, addressOfNames 9; 40-byte exports buffer). -/
def peZeroNames : nativeImagePE :=
  ⟨List.replicate 20 0 ++ [5, 0, 0, 0] ++ [0, 0, 0, 0] ++ [7, 0, 0, 0] ++ [9, 0, 0, 0]
     ++ [0, 0, 0, 0],
   0, none⟩

/-- A PE image whose name-pointer walk immediately hits an out-of-bounds
index: `numberOfNames = 1` but `addressOfNames = 100` points past the
39-byte exports buffer. -/
def peShortWalk : nativeImagePE :=
  ⟨List.replicate 20 0 ++ [0, 0, 0, 0] ++ [1, 0, 0, 0] ++ [0, 0, 0, 0] ++ [100, 0, 0, 0]
     ++ [0, 0, 0],
   0, none⟩

/-- A PE image in which the marker name `sbom` occupies index 0 of the
name-pointer array: `numberOfNames = 1`, `addressOfNames = 36`, the entry
at offset 36 points to offset 40 where the NUL-terminated bytes of `sbom`
lie (45-byte exports buffer, export directory virtual address 0). -/
def peIndexZero : nativeImagePE :=
  ⟨List.replicate 20 0 ++ [0, 0, 0, 0] ++ [1, 0, 0, 0] ++ [0, 0, 0, 0] ++ [36, 0, 0, 0]
     ++ [40, 0, 0, 0] ++ [115, 98, 111, 109, 0],
   0, none⟩

/-- Modelled from the spec: the FormatDetector contract as the spec words
it — "the first probe that recognizes the container format wins for that
reader: once a probe succeeds, no later probe's extraction result
contributes".  Only the first recognized image is extracted. -/
def specFirstProbeWins {CPE : Type} (E : ExtDeps CPE) (r : Reader) :
    GoOutcome (List (Package CPE)) :=
  match ((probeResults r).filterMap id).head? with
  | none => .ok []
  | some ni =>
    match ni.fetchPkgs E with
    | .ok pkgs => .ok pkgs
    | .error _ => .ok []
    | .panic => .panic

/-- Appending through a fold (the Go `pkgs = append(pkgs, ...)` loop)
is mapping. -/
theorem foldl_append_eq_map {α β : Type} (f : α → β) (l : List α) (acc : List β) :
    l.foldl (fun a c => a ++ [f c]) acc = acc ++ l.map f := by
  induction l generalizing acc with
  | nil => simp
  | cons x xs ih => simp [ih]

/-- Conditionally appending through a fold (the Go `continue`-on-parse-
failure loop) is `filterMap`. -/
theorem foldl_skip_eq_filterMap {α β : Type} (g : α → Option β) (l : List α)
    (acc : List β) :
    l.foldl (fun a p => match g p with | none => a | some c => a ++ [c]) acc
      = acc ++ l.filterMap g := by
  induction l generalizing acc with
  | nil => simp
  | cons x xs ih => cases h : g x <;> simp [h, ih]

/-- C1: the payload decoder checks `lengthFieldOffset + 8 ≤ bufferLength`
and `payloadStart + declaredLength ≤ bufferLength`, and in the absence of
wrap-around a violation returns an error (second conjunct).  But the
claim's overflow case fails: with `lengthStart = 2^64 - 4` the wrapped sum
`lengthStart + 8 = 4` passes the check against the 4-byte buffer and the
slice `databuf[lengthStart:lengthEnd]` is out of range — a panic, not a
returned error (first conjunct). -/
theorem c1_overflow_defeats_bounds_check :
    decompressSbom extUnit [0, 0, 0, 0] 0 (U64 - 4) = .panic ∧
    decompressSbom extUnit [0, 0, 0, 0] 0 4 = .error .sbomLengthOverflow := by
  constructor <;> decide

/-- C8: the component-to-package mapper is pure and total: the package
loop of `decompressSbom` is exactly `List.map getPackage` (one package per
component, in order, `length` preserved — no component dropped, whatever
its properties parse to); `getPackage` copies name/version/group verbatim
and collects exactly the parseable CPEs; and a property whose value fails
CPE parsing is skipped without affecting the rest of the record. -/
theorem c8_mapper_pure_total :
    (∀ (CPE : Type) (cpeNew : String → Option CPE) (comps : List nativeImageComponent),
      comps.foldl (fun pkgs component => pkgs ++ [getPackage cpeNew component]) [] =
        comps.map (getPackage cpeNew)) ∧
    (∀ (CPE : Type) (cpeNew : String → Option CPE) (comps : List nativeImageComponent),
      (comps.foldl (fun pkgs component => pkgs ++ [getPackage cpeNew component])
        ([] : List (Package CPE))).length = comps.length) ∧
    (∀ (CPE : Type) (cpeNew : String → Option CPE) (component : nativeImageComponent),
      (getPackage cpeNew component).cpes
          = component.properties.filterMap (fun p => cpeNew p.value) ∧
        (getPackage cpeNew component).name = component.name ∧
        (getPackage cpeNew component).version = component.version ∧
        (getPackage cpeNew component).metadata = ⟨⟨component.group⟩⟩) ∧
    (∀ (CPE : Type) (cpeNew : String → Option CPE) (c : nativeImageComponent)
        (l1 l2 : List nativeImageCPE) (p : nativeImageCPE),
      cpeNew p.value = none →
      getPackage cpeNew { c with properties := l1 ++ p :: l2 }
        = getPackage cpeNew { c with properties := l1 ++ l2 }) := by
  refine ⟨?_, ?_, ?_, ?_⟩
  · intro CPE cpeNew comps
    simpa using foldl_append_eq_map (getPackage cpeNew) comps []
  · intro CPE cpeNew comps
    have h := foldl_append_eq_map (getPackage cpeNew) comps []
    simp [h]
  · intro CPE cpeNew component
    refine ⟨?_, rfl, rfl, rfl⟩
    simpa [getPackage] using
      foldl_skip_eq_filterMap (fun p => cpeNew p.value) component.properties []
  · intro CPE cpeNew c l1 l2 p hp
    have h1 := foldl_skip_eq_filterMap (fun q => cpeNew q.value) (l1 ++ p :: l2) []
    have h2 := foldl_skip_eq_filterMap (fun q => cpeNew q.value) (l1 ++ l2) []
    simp [getPackage, h1, h2, List.filterMap_append, hp]

/-- C8 witness: a failing property in the middle of the list is skipped:
mapping the component with it equals mapping the component without it. -/
theorem c8_mapper_pure_total_witness :
    getPackage (fun _ => (none : Option Unit))
        { type := "library", group := "g", name := "n", version := "1.0",
          properties := [] ++ ⟨"cpe", "bad"⟩ :: [] }
      = getPackage (fun _ => none)
        { type := "library", group := "g", name := "n", version := "1.0",
          properties := [] ++ [] } :=
  c8_mapper_pure_total.2.2.2 Unit (fun _ => none)
    { type := "library", group := "g", name := "n", version := "1.0", properties := [] }
    [] [] ⟨"cpe", "bad"⟩ rfl

/-- Binding a successful outcome applies the continuation. -/
@[simp] theorem GoOutcome.ok_bind {α β : Type} (a : α) (f : α → GoOutcome β) :
    (GoOutcome.ok a >>= f) = f a := rfl

/-- Binding an error propagates it. -/
@[simp] theorem GoOutcome.error_bind {α β : Type} (e : GoErr) (f : α → GoOutcome β) :
    ((GoOutcome.error e : GoOutcome α) >>= f) = .error e := rfl

/-- Binding a panic propagates it. -/
@[simp] theorem GoOutcome.panic_bind {α β : Type} (f : α → GoOutcome β) :
    ((GoOutcome.panic : GoOutcome α) >>= f) = .panic := rfl

/-- C3 (amended): a recognized binary whose symbol enumeration is
available but misses any of the three markers (zero or not found) yields
a `missingSymbols` error from its per-image extraction — in each of the
three formats (for Mach-O, provided a symbol table is present) — and the
per-file `fetchPkgs` over the union reader converts every per-image error
into an empty package list with no escalated error (it has no error
channel at all).  A recognized Mach-O with *no* symbol table instead
panics on the nil `Symtab` dereference (see the counterexample). -/
theorem c3_missing_marker_empty_no_error :
    (∀ (CPE : Type) (E : ExtDeps CPE) (ni : ElfFile) (si : List ElfSymbol),
      ni.symbols = some si →
      ((findElfSyms si).sbom = 0 ∨ (findElfSyms si).sbomLength = 0 ∨
        (findElfSyms si).svmVersion = 0) →
      nativeImageElf.fetchPkgs E ni = .error .missingSymbols) ∧
    (∀ (CPE : Type) (E : ExtDeps CPE) (ni : MachOFile) (syms : List MachOSymbol),
      ni.symtab = some syms →
      ((findMachOSyms syms).sbom = 0 ∨ (findMachOSyms syms).sbomLength = 0 ∨
        (findMachOSyms syms).svmVersion = 0) →
      nativeImageMachO.fetchPkgs E ni = .error .missingSymbols) ∧
    (∀ (CPE : Type) (E : ExtDeps CPE) (ni : nativeImagePE) (c₀ c : exportContentPE),
      ni.fetchExportContent = .ok c₀ →
      ni.fetchSbomSymbols c₀ = .ok c →
      (c.addressOfSbom = 0 ∨ c.addressOfSbomLength = 0 ∨ c.addressOfSvmVersion = 0) →
      nativeImagePE.fetchPkgs E ni = .error .missingSymbols) ∧
    (∀ (CPE : Type) (E : ExtDeps CPE) (rs : List Reader),
      (∀ r ∈ rs,
        (∀ f, r.elf = some f → ∃ e, nativeImageElf.fetchPkgs E f = .error e) ∧
        (∀ f, r.macho = some f → ∃ e, nativeImageMachO.fetchPkgs E f = .error e) ∧
        (∀ f, r.pe = some f → ∃ e, nativeImagePE.fetchPkgs E f = .error e)) →
      fetchPkgs E (some rs) = .ok []) := by
  refine ⟨?_, ?_, ?_, ?_⟩
  · intro CPE E ni si hsi hz
    unfold nativeImageElf.fetchPkgs
    rw [hsi]
    simp [hz]
  · intro CPE E ni syms hsyms hz
    unfold nativeImageMachO.fetchPkgs
    rw [hsyms]
    simp [hz]
  · intro CPE E ni c₀ c hc₀ hc hz
    unfold nativeImagePE.fetchPkgs
    rw [hc₀, GoOutcome.ok_bind, hc, GoOutcome.ok_bind, if_pos hz]
  · intro CPE E rs hall
    have hreader : ∀ (pkgs : List (Package CPE)) (r : Reader),
        (∀ f, r.elf = some f → ∃ e, nativeImageElf.fetchPkgs E f = .error e) →
        (∀ f, r.macho = some f → ∃ e, nativeImageMachO.fetchPkgs E f = .error e) →
        (∀ f, r.pe = some f → ∃ e, nativeImagePE.fetchPkgs E f = .error e) →
        fetchPkgsReader E (.ok pkgs) r = .ok pkgs := by
      intro pkgs r h1 h2 h3
      have step1 : stepProbe E (.ok pkgs) (r.elf.map .elf) = .ok pkgs := by
        rcases hr : r.elf with _ | f
        · rfl
        · obtain ⟨e, he⟩ := h1 f hr
          simp [stepProbe, NImage.fetchPkgs, he]
      have step2 : stepProbe E (.ok pkgs) (r.macho.map .macho) = .ok pkgs := by
        rcases hr : r.macho with _ | f
        · rfl
        · obtain ⟨e, he⟩ := h2 f hr
          simp [stepProbe, NImage.fetchPkgs, he]
      have step3 : stepProbe E (.ok pkgs) (r.pe.map .pe) = .ok pkgs := by
        rcases hr : r.pe with _ | f
        · rfl
        · obtain ⟨e, he⟩ := h3 f hr
          simp [stepProbe, NImage.fetchPkgs, he]
      unfold fetchPkgsReader probeResults
      simp only [List.foldl]
      rw [step1, step2, step3]
    unfold fetchPkgs
    induction rs with
    | nil => rfl
    | cons r rest ih =>
      simp only [List.foldl]
      obtain ⟨h1, h2, h3⟩ := hall r (by simp)
      rw [hreader [] r h1 h2 h3]
      exact ih (fun r' hr' => hall r' (by simp [hr']))

/-- C3 witness: an ELF binary lacking the `sbom` marker yields the
missing-symbols error per-image, and an empty list with no error from the
per-file extraction. -/
theorem c3_missing_marker_empty_no_error_witness :
    nativeImageElf.fetchPkgs extUnit elfMissing = .error .missingSymbols ∧
    fetchPkgs extUnit (some [⟨some elfMissing, none, none⟩]) = .ok [] := by
  constructor
  · exact c3_missing_marker_empty_no_error.1 Unit extUnit elfMissing
      [⟨nativeImageSbomLengthSymbol, 5⟩, ⟨nativeImageSbomVersionSymbol, 6⟩]
      rfl (Or.inl (by decide))
  · refine c3_missing_marker_empty_no_error.2.2.2 Unit extUnit
      [⟨some elfMissing, none, none⟩] ?_
    intro r hr
    rw [List.mem_singleton] at hr
    subst hr
    refine ⟨fun f hf => ⟨.missingSymbols, by rw [← Option.some.inj hf]; decide⟩,
      fun f hf => absurd hf (by simp), fun f hf => absurd hf (by simp)⟩

/-- C3 counterexample: the claim as stated is false. `machoNoSymtab` is a
recognized Mach-O in which all three markers are absent — it carries no
symbol table at all, so its `Symtab` pointer is nil — yet per-file
extraction panics on the unguarded `bi.Symtab.Syms` dereference instead
of returning an empty package list with no escalated error. -/
theorem c3_no_symtab_macho_cex :
    nativeImageMachO.fetchPkgs extUnit machoNoSymtab = .panic ∧
    fetchPkgs extUnit (some [⟨none, some machoNoSymtab, none⟩]) = .panic ∧
    (GoOutcome.panic : GoOutcome (List (Package Unit))) ≠ .ok [] := by
  refine ⟨rfl, by decide, by decide⟩

/-- C4: for every reader recognized by at most one of the three format
probes — the case for every real byte stream, since the ELF, Mach-O and
PE magic numbers at offset 0 are mutually exclusive — the ordered probe
loop produces exactly the first-probe-wins semantics the spec words:
the (unique) successful probe's extraction is that reader's package list
and no other probe contributes. -/
theorem c4_first_probe_wins :
    ∀ (CPE : Type) (E : ExtDeps CPE) (r : Reader),
      (r.elf = none ∧ r.macho = none) ∨ (r.elf = none ∧ r.pe = none) ∨
        (r.macho = none ∧ r.pe = none) →
      fetchPkgs E (some [r]) = specFirstProbeWins E r := by
  intro CPE E r hex
  obtain ⟨e, m, p⟩ := r
  rcases e with _ | f₁ <;> rcases m with _ | f₂ <;> rcases p with _ | f₃
  · rfl
  · cases hni : NImage.fetchPkgs E (.pe f₃) <;>
      simp [fetchPkgs, fetchPkgsReader, probeResults, stepProbe, specFirstProbeWins, hni]
  · cases hni : NImage.fetchPkgs E (.macho f₂) <;>
      simp [fetchPkgs, fetchPkgsReader, probeResults, stepProbe, specFirstProbeWins, hni]
  · simp at hex
  · cases hni : NImage.fetchPkgs E (.elf f₁) <;>
      simp [fetchPkgs, fetchPkgsReader, probeResults, stepProbe, specFirstProbeWins, hni]
  · simp at hex
  · simp at hex
  · simp at hex

/-- C4 witness: a reader recognized only by the ELF probe follows the
first-probe-wins semantics and extracts the scenario package. -/
theorem c4_first_probe_wins_witness :
    fetchPkgs scenarioExt (some [⟨some (scenarioElf payload37), none, none⟩])
        = specFirstProbeWins scenarioExt ⟨some (scenarioElf payload37), none, none⟩ ∧
    specFirstProbeWins scenarioExt ⟨some (scenarioElf payload37), none, none⟩
        = .ok [scenarioPackage] :=
  ⟨c4_first_probe_wins Unit scenarioExt ⟨some (scenarioElf payload37), none, none⟩
      (Or.inr (Or.inr ⟨rfl, rfl⟩)),
   by decide⟩

/-- A `wsub32` result is always below 2^32. -/
theorem wsub32_lt (a b : Nat) : wsub32 a b < U32 :=
  Nat.mod_lt _ (by norm_num [U32])

/-- C5 (amended): every indexed read in the PE export pathway is preceded
by a comparison of the (wrapped uint32) end offset against the exports
length using `>=`.  A failed check in the header-attribute read and in the
function-pointer read is reported as the distinguishable invalid-index
error (first two conjuncts); but a failed check while walking the
name-pointer array silently stops the walk with no invalid-index error —
the loop just returns what it has (third conjunct).  When the 32-bit
arithmetic does not wrap, a successful function-pointer read really is
within the buffer (fourth conjunct). -/
theorem c5_bounds_check_reporting :
    (∀ (ni : nativeImagePE) (i : Nat),
      sizeofExportPrefixPE + i * sizeofUint32 + 4 ≥ ni.exports.length →
      ni.fetchExportAttribute i = .error .invalidIndex) ∧
    (∀ (ni : nativeImagePE) (fb i : Nat),
      ((fb + i * sizeofUint32) % U32 + sizeofUint32) % U32 ≥ ni.exports.length % U32 →
      ni.fetchExportFunctionPointer fb i = .error .invalidIndex) ∧
    (∀ (ni : nativeImagePE) (c : exportContentPE) (i rem : Nat),
      ((wsub32 c.addressOfNames ni.exportVA + (i * sizeofUint32) % U32) % U32
          + sizeofUint32) % U32 ≥ ni.exports.length % U32 →
      ni.fetchSbomSymbolsLoop c i (rem + 1) = .ok c) ∧
    (∀ (ni : nativeImagePE) (fb i v : Nat),
      ni.exports.length < U32 →
      ni.fetchExportFunctionPointer fb i = .ok v →
      (fb + i * sizeofUint32) % U32 + sizeofUint32 ≤ ni.exports.length) := by
  refine ⟨?_, ?_, ?_, ?_⟩
  · intro ni i h
    simp only [nativeImagePE.fetchExportAttribute]
    rw [if_pos h]
  · intro ni fb i h
    simp only [nativeImagePE.fetchExportFunctionPointer]
    rw [if_pos h]
  · intro ni c i rem h
    simp only [nativeImagePE.fetchSbomSymbolsLoop]
    rw [if_pos h]
  · intro ni fb i v hlen hok
    simp only [nativeImagePE.fetchExportFunctionPointer] at hok
    split at hok
    · exact absurd hok (by simp)
    · split at hok
      · exact absurd hok (by simp)
      · rename_i hge hgt
        have hn : ni.exports.length % U32 = ni.exports.length := Nat.mod_eq_of_lt hlen
        rw [hn] at hge
        have hj : (fb + i * sizeofUint32) % U32 < U32 :=
          Nat.mod_lt _ (by norm_num [U32])
        have hU : U32 = 4294967296 := by norm_num [U32]
        set j := (fb + i * sizeofUint32) % U32 with hjdef
        have hhigh : (j + sizeofUint32) % U32 < ni.exports.length := by omega
        have hnw : j ≤ (j + sizeofUint32) % U32 := by omega
        by_cases hw : j + sizeofUint32 < U32
        · rw [Nat.mod_eq_of_lt hw] at hhigh
          omega
        · have h2 : j + sizeofUint32 - U32 < U32 := by
            simp only [sizeofUint32] at hw ⊢
            omega
          have : (j + sizeofUint32) % U32 = j + sizeofUint32 - U32 := by
            rw [Nat.mod_eq_sub_mod (by omega), Nat.mod_eq_of_lt h2]
          rw [this] at hnw
          simp only [sizeofUint32] at hnw hw
          omega

/-- C5 witness: a failed check in the header-attribute and function-
pointer reads yields the invalid-index error; a failed check in the walk
returns the content silently; a successful function-pointer read is in
bounds. -/
theorem c5_bounds_check_reporting_witness :
    nativeImagePE.fetchExportAttribute peShortWalk 100 = .error .invalidIndex ∧
    nativeImagePE.fetchExportFunctionPointer peShortWalk 100 0 = .error .invalidIndex ∧
    nativeImagePE.fetchSbomSymbolsLoop peShortWalk ⟨0, 1, 0, 100, 0, 0, 0⟩ 0 1
      = .ok ⟨0, 1, 0, 100, 0, 0, 0⟩ ∧
    (20 + 0 * sizeofUint32) % U32 + sizeofUint32 ≤ peIndexZero.exports.length := by
  refine ⟨?_, ?_, ?_, ?_⟩
  · exact c5_bounds_check_reporting.1 peShortWalk 100 (by decide)
  · exact c5_bounds_check_reporting.2.1 peShortWalk 100 0 (by decide)
  · exact c5_bounds_check_reporting.2.2.1 peShortWalk ⟨0, 1, 0, 100, 0, 0, 0⟩ 0 0
      (by decide)
  · exact c5_bounds_check_reporting.2.2.2 peIndexZero 20 0 0 (by decide) (by decide)

/-- C5 counterexample: the claim as stated — every index that would read
past the exports buffer is reported as a distinguishable invalid-index
error — is false for the name-pointer walk: on `peShortWalk` the walk's
very first read (name-pointer entry at wrapped offset 100 of a 39-byte
buffer) fails its bounds check, yet the image surfaces the
missing-symbols error, not the invalid-index one. -/
theorem c5_walk_violation_not_invalid_index_cex :
    ((wsub32 100 0 + (0 * sizeofUint32) % U32) % U32 + sizeofUint32) % U32
        ≥ peShortWalk.exports.length % U32 ∧
    nativeImagePE.fetchPkgs extUnit peShortWalk = .error .missingSymbols ∧
    GoErr.missingSymbols ≠ GoErr.invalidIndex := by
  refine ⟨by decide, by decide, by decide⟩

/-- C6: every bounds check in the PE export pathway uses `>=` against the
exports length, so an exact-fit read — one whose end offset equals the
buffer length, i.e. whose last byte is the buffer's last byte — is
rejected (as invalid-index in the attribute and function-pointer reads,
as a silent stop in the name-pointer walk) even though it is in bounds. -/
theorem c6_exact_fit_read_rejected :
    (∀ (ni : nativeImagePE) (i : Nat),
      sizeofExportPrefixPE + i * sizeofUint32 + 4 = ni.exports.length →
      ni.fetchExportAttribute i = .error .invalidIndex) ∧
    (∀ (ni : nativeImagePE) (fb i : Nat),
      ni.exports.length < U32 →
      (fb + i * sizeofUint32) % U32 + sizeofUint32 = ni.exports.length →
      ni.fetchExportFunctionPointer fb i = .error .invalidIndex) ∧
    (∀ (ni : nativeImagePE) (c : exportContentPE) (rem : Nat),
      ni.exports.length < U32 →
      wsub32 c.addressOfNames ni.exportVA + sizeofUint32 = ni.exports.length →
      ni.fetchSbomSymbolsLoop c 0 (rem + 1) = .ok c) := by
  refine ⟨?_, ?_, ?_⟩
  · intro ni i h
    simp only [nativeImagePE.fetchExportAttribute]
    rw [if_pos (le_of_eq h.symm)]
  · intro ni fb i hlen h
    simp only [nativeImagePE.fetchExportFunctionPointer]
    have : ((fb + i * sizeofUint32) % U32 + sizeofUint32) % U32
        = ni.exports.length := by
      rw [h, Nat.mod_eq_of_lt hlen]
    rw [if_pos (by rw [this, Nat.mod_eq_of_lt hlen])]
  · intro ni c rem hlen h
    simp only [nativeImagePE.fetchSbomSymbolsLoop]
    have hz : (0 * sizeofUint32) % U32 = 0 := by simp
    have : ((wsub32 c.addressOfNames ni.exportVA + (0 * sizeofUint32) % U32) % U32
        + sizeofUint32) % U32 = ni.exports.length := by
      rw [hz, Nat.add_zero,
        Nat.mod_eq_of_lt (wsub32_lt c.addressOfNames ni.exportVA), h,
        Nat.mod_eq_of_lt hlen]
    rw [if_pos (by rw [this, Nat.mod_eq_of_lt hlen])]

/-- C6 witness: on a 40-byte exports buffer, the attribute read at offsets
36..39 (end = 40 = length), the function-pointer read at 36..39 and the
name-walk read at 36..39 are all rejected despite being in bounds. -/
theorem c6_exact_fit_read_rejected_witness :
    nativeImagePE.fetchExportAttribute peZeroNames 4 = .error .invalidIndex ∧
    nativeImagePE.fetchExportFunctionPointer peZeroNames 36 0 = .error .invalidIndex ∧
    nativeImagePE.fetchSbomSymbolsLoop peZeroNames ⟨0, 1, 0, 36, 0, 0, 0⟩ 0 1
      = .ok ⟨0, 1, 0, 36, 0, 0, 0⟩ := by
  refine ⟨?_, ?_, ?_⟩
  · exact c6_exact_fit_read_rejected.1 peZeroNames 4 (by decide)
  · exact c6_exact_fit_read_rejected.2.1 peZeroNames 36 0 (by decide) (by decide)
  · exact c6_exact_fit_read_rejected.2.2 peZeroNames ⟨0, 1, 0, 36, 0, 0, 0⟩ 0
      (by decide) (by decide)

/-- Inversion of a successful bind. -/
theorem GoOutcome.bind_ok_inv {α β : Type} {x : GoOutcome α} {f : α → GoOutcome β}
    {b : β} (h : (x >>= f) = .ok b) : ∃ a, x = .ok a ∧ f a = .ok b := by
  cases x with
  | ok a => exact ⟨a, rfl, h⟩
  | error e => rw [GoOutcome.error_bind] at h; exact absurd h (by simp)
  | panic => rw [GoOutcome.panic_bind] at h; exact absurd h (by simp)

/-- A successfully read export directory header has all three marker
indices still zero. -/
theorem fetchExportContent_indices_zero (ni : nativeImagePE) (c : exportContentPE)
    (h : ni.fetchExportContent = .ok c) :
    c.addressOfSbom = 0 ∧ c.addressOfSbomLength = 0 ∧ c.addressOfSvmVersion = 0 := by
  unfold nativeImagePE.fetchExportContent at h
  obtain ⟨a0, h0, h⟩ := GoOutcome.bind_ok_inv h
  obtain ⟨a1, h1, h⟩ := GoOutcome.bind_ok_inv h
  obtain ⟨a2, h2, h⟩ := GoOutcome.bind_ok_inv h
  obtain ⟨a3, h3, h⟩ := GoOutcome.bind_ok_inv h
  injection h with h
  rw [← h]
  exact ⟨rfl, rfl, rfl⟩

/-- A walk over zero names is a no-op, for any exports buffer. -/
theorem fetchSbomSymbols_zeroNames (ni : nativeImagePE) (c : exportContentPE)
    (h : c.numberOfNames = 0) : ni.fetchSbomSymbols c = .ok c := by
  unfold nativeImagePE.fetchSbomSymbols
  rw [h]
  rfl

/-- A PE image whose export directory declares zero names surfaces the
missing-symbols error. -/
theorem peFetchPkgs_zeroNames {CPE : Type} (E : ExtDeps CPE) (ni : nativeImagePE)
    (c₀ : exportContentPE) (hc₀ : ni.fetchExportContent = .ok c₀)
    (hn : c₀.numberOfNames = 0) :
    nativeImagePE.fetchPkgs E ni = .error .missingSymbols := by
  unfold nativeImagePE.fetchPkgs
  rw [hc₀, GoOutcome.ok_bind, fetchSbomSymbols_zeroNames ni c₀ hn, GoOutcome.ok_bind]
  obtain ⟨hz, _, _⟩ := fetchExportContent_indices_zero ni c₀ hc₀
  rw [if_pos (Or.inl hz)]

/-- C7: with `numberOfNames = 0` the marker walk performs no iteration at
all — it returns the zero-initialised content unchanged, for every exports
buffer, so no name-array entry is read — and the image yields the
missing-symbols condition per-image and an empty package list with no
error from the per-file extraction. -/
theorem c7_zero_names_no_walk_empty :
    (∀ (ni : nativeImagePE) (c : exportContentPE),
      c.numberOfNames = 0 → ni.fetchSbomSymbols c = .ok c) ∧
    (∀ (CPE : Type) (E : ExtDeps CPE) (ni : nativeImagePE) (c₀ : exportContentPE),
      ni.fetchExportContent = .ok c₀ → c₀.numberOfNames = 0 →
      nativeImagePE.fetchPkgs E ni = .error .missingSymbols) ∧
    (∀ (CPE : Type) (E : ExtDeps CPE) (ni : nativeImagePE) (c₀ : exportContentPE),
      ni.fetchExportContent = .ok c₀ → c₀.numberOfNames = 0 →
      fetchPkgs E (some [⟨none, none, some ni⟩]) = .ok []) := by
  refine ⟨fetchSbomSymbols_zeroNames, fun CPE => peFetchPkgs_zeroNames, ?_⟩
  intro CPE E ni c₀ hc₀ hn
  have herr := peFetchPkgs_zeroNames E ni c₀ hc₀ hn
  unfold fetchPkgs
  simp only [List.foldl]
  unfold fetchPkgsReader probeResults
  simp only [List.foldl, Option.map_none', Option.map_some']
  rw [show stepProbe E (.ok []) (none : Option NImage) = .ok [] from rfl,
    show stepProbe E (.ok []) (none : Option NImage) = .ok [] from rfl]
  simp [stepProbe, NImage.fetchPkgs, herr]

/-- C7 witness: the concrete PE image `peZeroNames` (numberOfNames = 0)
yields the missing-symbols error per-image and an empty package list. -/
theorem c7_zero_names_no_walk_empty_witness :
    nativeImagePE.fetchPkgs extUnit peZeroNames = .error .missingSymbols ∧
    fetchPkgs extUnit (some [⟨none, none, some peZeroNames⟩]) = .ok [] :=
  ⟨c7_zero_names_no_walk_empty.2.1 Unit extUnit peZeroNames ⟨5, 0, 7, 9, 0, 0, 0⟩
      (by decide) rfl,
   c7_zero_names_no_walk_empty.2.2 Unit extUnit peZeroNames ⟨5, 0, 7, 9, 0, 0, 0⟩
      (by decide) rfl⟩

/-- C10: the PE pathway encodes "marker found" as a nonzero recorded
name-array index.  When the `sbom` marker occupies index 0 of the
name-pointer array (one name, resolving in bounds to bytes starting with
`sbom\x00`), the walk records index 0 — indistinguishable from the
zero-initialised "absent" state — so the subsequent zero-value check
declares the manifest missing and the image yields no packages although
the marker is present. -/
theorem c10_marker_at_index_zero_missed :
    ∀ (CPE : Type) (E : ExtDeps CPE) (ni : nativeImagePE) (c₀ : exportContentPE),
      ni.fetchExportContent = .ok c₀ →
      c₀.numberOfNames = 1 →
      wsub32 c₀.addressOfNames ni.exportVA + sizeofUint32 < ni.exports.length % U32 →
      wsub32 (readLE ni.exports (wsub32 c₀.addressOfNames ni.exportVA) 4) ni.exportVA
        < ni.exports.length % U32 →
      sbomBytes.isPrefixOf (ni.exports.drop
        (wsub32 (readLE ni.exports (wsub32 c₀.addressOfNames ni.exportVA) 4)
          ni.exportVA)) = true →
      ni.fetchSbomSymbols c₀ = .ok c₀ ∧
      nativeImagePE.fetchPkgs E ni = .error .missingSymbols ∧
      fetchPkgs E (some [⟨none, none, some ni⟩]) = .ok [] := by
  intro CPE E ni c₀ hc₀ hn hb hsb hpre
  obtain ⟨hz1, hz2, hz3⟩ := fetchExportContent_indices_zero ni c₀ hc₀
  have hklt : wsub32 c₀.addressOfNames ni.exportVA < U32 := wsub32_lt _ _
  have hnlt : ni.exports.length % U32 < U32 := Nat.mod_lt _ (by norm_num [U32])
  have hwalk : ni.fetchSbomSymbols c₀ = .ok c₀ := by
    unfold nativeImagePE.fetchSbomSymbols
    rw [hn]
    simp only [nativeImagePE.fetchSbomSymbolsLoop]
    rw [Nat.zero_mul, Nat.zero_mod, Nat.add_zero,
      Nat.mod_eq_of_lt hklt]
    have hkw : (wsub32 c₀.addressOfNames ni.exportVA + sizeofUint32) % U32
        = wsub32 c₀.addressOfNames ni.exportVA + sizeofUint32 :=
      Nat.mod_eq_of_lt (by omega)
    rw [hkw]
    rw [if_neg (by omega : ¬ wsub32 c₀.addressOfNames ni.exportVA + sizeofUint32
      ≥ ni.exports.length % U32)]
    rw [if_neg (by omega : ¬ wsub32 c₀.addressOfNames ni.exportVA
      > wsub32 c₀.addressOfNames ni.exportVA + sizeofUint32)]
    rw [if_neg (not_le.mpr hsb)]
    rw [if_pos hpre]
    rw [show ({ c₀ with addressOfSbom := 0 } : exportContentPE) = c₀ by
      cases c₀; simp_all]
  refine ⟨hwalk, ?_, ?_⟩
  · unfold nativeImagePE.fetchPkgs
    rw [hc₀, GoOutcome.ok_bind, hwalk, GoOutcome.ok_bind, if_pos (Or.inl hz1)]
  · have herr : nativeImagePE.fetchPkgs E ni = .error .missingSymbols := by
      unfold nativeImagePE.fetchPkgs
      rw [hc₀, GoOutcome.ok_bind, hwalk, GoOutcome.ok_bind, if_pos (Or.inl hz1)]
    unfold fetchPkgs
    simp only [List.foldl]
    unfold fetchPkgsReader probeResults
    simp only [List.foldl, Option.map_none', Option.map_some']
    rw [show stepProbe E (.ok []) (none : Option NImage) = .ok [] from rfl,
      show stepProbe E (.ok []) (none : Option NImage) = .ok [] from rfl]
    simp [stepProbe, NImage.fetchPkgs, herr]

/-- C10 witness: on `peIndexZero` (name index 0 points to `sbom\x00`) the
walk leaves the content unchanged and the image surfaces missing-symbols
with an empty package list. -/
theorem c10_marker_at_index_zero_missed_witness :
    peIndexZero.fetchSbomSymbols ⟨0, 1, 0, 36, 0, 0, 0⟩ = .ok ⟨0, 1, 0, 36, 0, 0, 0⟩ ∧
    nativeImagePE.fetchPkgs extUnit peIndexZero = .error .missingSymbols ∧
    fetchPkgs extUnit (some [⟨none, none, some peIndexZero⟩]) = .ok [] :=
  c10_marker_at_index_zero_missed Unit extUnit peIndexZero ⟨0, 1, 0, 36, 0, 0, 0⟩
    (by decide) rfl (by decide) (by decide) (by decide)

/-- C9: per-image *errors* are all caught — the scan over the healthy file
alone returns its package with no error (second conjunct) — but the claim
that the multi-file scan never aborts because one binary is malformed
fails: `elfPanicking` (markers nonzero, `sbom_length` 4 bytes below the
`.data` base, so the wrapped offset defeats the bounds check) panics
inside `decompressSbom`, and the panic aborts the whole two-file scan,
losing the healthy file's packages (first conjunct). -/
theorem c9_malformed_binary_aborts_scan :
    Catalog scenarioExt (some
      [.entry (some [⟨some elfPanicking, none, none⟩]),
       .entry (some [⟨some (scenarioElf payload37), none, none⟩])]) = .panic ∧
    Catalog scenarioExt (some
      [.entry (some [⟨some (scenarioElf payload37), none, none⟩])])
      = .ok [scenarioPackage] := by
  constructor
  · set_option maxRecDepth 10000 in decide
  · set_option maxRecDepth 10000 in decide

/-- C2: the spec's concrete ELF scenario — `.data` base 0x2000, the
little-endian length field 37 at virtual address 0x2010, the 37-byte
compressed payload at 0x2020 decompressing to the given one-component
CycloneDX text — extracts exactly one package with name `n`, version
`1.0`, group `g` and zero CPEs, the fields copied verbatim from the
component. -/
theorem c2_elf_scenario {CPE : Type} (E : ExtDeps CPE) (payload : List Nat)
    (hlen : payload.length = 37)
    (hgz : E.gz payload = some scenarioJsonBytes)
    (hjs : E.js scenarioJsonBytes = some scenarioDoc) :
    nativeImageElf.fetchPkgs E (scenarioElf payload) = .ok [scenarioPackage] := by
  have hbuf : (scenarioDataBuf payload).length = 69 := by
    simp [scenarioDataBuf, scenarioPre, hlen]
  have hread : readLE (scenarioDataBuf payload) 16 8 = 37 := by
    have hpre : ∀ i, i < 32 →
        (scenarioDataBuf payload).getD i 0 = scenarioPre.getD i 0 := by
      intro i hi
      unfold scenarioDataBuf
      exact List.getD_append _ _ _ _ (by simpa [scenarioPre] using hi)
    simp only [readLE]
    rw [hpre 16 (by omega), hpre 17 (by omega), hpre 18 (by omega), hpre 19 (by omega),
      hpre 20 (by omega), hpre 21 (by omega), hpre 22 (by omega), hpre 23 (by omega)]
    decide
  have hdrop : (scenarioDataBuf payload).drop 32 = payload := by
    unfold scenarioDataBuf
    rw [show (32 : Nat) = scenarioPre.length from rfl, List.drop_left]
  have htake : payload.take 37 = payload := List.take_of_length_le (by omega)
  have hsyms : findElfSyms
      [⟨nativeImageSbomSymbol, 0x2020⟩, ⟨nativeImageSbomLengthSymbol, 0x2010⟩,
       ⟨nativeImageSbomVersionSymbol, 0x2001⟩] = ⟨0x2020, 0x2010, 0x2001⟩ := by decide
  have hw1 : wsub64 0x2020 0x2000 = 32 := by decide
  have hw2 : wsub64 0x2010 0x2000 = 16 := by decide
  unfold nativeImageElf.fetchPkgs scenarioElf
  simp only [hsyms, hw1, hw2]
  rw [if_neg (by decide : ¬ ((8224 : Nat) = 0 ∨ (8208 : Nat) = 0 ∨ (8193 : Nat) = 0))]
  unfold decompressSbom
  simp only [hbuf, U64, hread, hdrop, htake, hgz, hjs]
  norm_num [hread]
  norm_num [hdrop, htake, hgz, hjs]
  rfl

/-- C2 witness: the scenario evaluated at the concrete payload and the
concrete collaborators. -/
theorem c2_elf_scenario_witness :
    nativeImageElf.fetchPkgs scenarioExt (scenarioElf payload37)
      = .ok [scenarioPackage] :=
  c2_elf_scenario scenarioExt payload37 (by decide) rfl (by decide)
